import Mathlib

/-!
# E37 exporter: token lifecycle of `pkg/collector/e37_client.go`

A shallow embedding of `GetToken`, `NewE37Client`, `E37Client.Request` and
`E37Client.Ping`.

Everything the Go code reaches outside the package is a field of `World`:
`net/url.Parse`, the method check of `http.NewRequest`, `x509.SystemCertPool`,
`json.Marshal` of the check body, the decoder behind `simplejson.NewJson`, and
the network itself (`http.Client.Do`).  The network answer may depend on every
event that happened before, so a login endpoint can hand out `T1` first and
`T2` later.

Go strings and byte slices are modelled as `String`; a Go `error` is
`Option String` (`none` is `nil`, `some m` is an error whose `Error()` is `m`).
The `logrus` calls have no effect on results and are left out.
-/

namespace E37

/-! ## Data model -/

/-- Decoded JSON document, as `simplejson` holds it after `encoding/json`
decoding: an object is a finite map, looked up with `List.lookup`; Go `nil` is
`null`. -/
inductive Json where
  | null : Json
  | bool (b : Bool) : Json
  | num (n : String) : Json
  | str (s : String) : Json
  | arr (xs : List Json) : Json
  | obj (kvs : List (String × Json)) : Json

/-- The two fields of `*url.URL` that the constructor inspects. -/
structure URL where
  Scheme : String
  Host : String
deriving DecidableEq, Repr

/-- Certificate pool returned by `x509.SystemCertPool`. -/
abbrev CertPool := List String

/-- The fields of `tls.Config` that the code sets. -/
structure TLSConfig where
  MinVersion : Nat
  RootCAs : Option CertPool
  InsecureSkipVerify : Bool
deriving DecidableEq, Repr

/-- The `http.Transport` with its TLS configuration. -/
structure Transport where
  TLSClientConfig : TLSConfig
deriving DecidableEq, Repr

/-- The `http.Client`: timeout (a `time.Duration`, nanoseconds) and transport. -/
structure HttpClient where
  Timeout : Int
  Transport : Transport
deriving DecidableEq, Repr

/-- Request headers; `Set` replaces the value stored under a key. -/
abbrev Header := List (String × String)

/-- The `http.Header.Set` operation for keys already in canonical form. -/
def Header.Set (h : Header) (key value : String) : Header :=
  (key, value) :: h.filter (fun kv => kv.1 != key)

/-- The `http.Header.Get` operation: the value under a key, `""` if there is none. -/
def Header.Get (h : Header) (key : String) : String :=
  match h.lookup key with
  | some v => v
  | none => ""

/-- An `http.Request` as built by `http.NewRequest`: `URL` is the string that
was handed to `http.NewRequest`, `Body` is `none` for a nil reader. -/
structure HttpRequest where
  Method : String
  URL : String
  Header : Header
  Body : Option String
deriving DecidableEq, Repr

/-- An `http.Response`: `Status` is the status text (`"401 Unauthorized"`),
`Body` is what `io.ReadAll(resp.Body)` yields, `BodyRepr` is how `%v` prints
the body reader. -/
structure Response where
  Status : String
  StatusCode : Int
  Body : Except String String
  BodyRepr : String

/-- Type `E37Opts`: login options. -/
structure E37Opts where
  URL : String
  Username : String
  password : String
  Concurrency : Int
  Timeout : Int
  Insecure : Bool
deriving DecidableEq, Repr

/-- Type `E37Client`: the session. `Opts` is shared and never written. -/
structure E37Client where
  Client : HttpClient
  Token : String
  Opts : E37Opts
deriving DecidableEq, Repr

/-- What the program did to the outside, in order: entering a function of the
package (ghost event) and handing a request to `http.Client.Do`. -/
inductive Event where
  | call (fn : String) : Event
  | send (client : HttpClient) (req : HttpRequest) : Event
deriving DecidableEq, Repr

/-- Value carried by a Go panic: a string (`panic(fmt.Sprintf(..))`), an error
(`panic(err)`) or the runtime's nil-pointer dereference. -/
inductive PanicValue where
  | str (s : String) : PanicValue
  | error (e : String) : PanicValue
  | nilDeref : PanicValue
deriving DecidableEq, Repr

/-- A Go call either returns or panics. -/
inductive Outcome (α : Type) where
  | ret (a : α) : Outcome α
  | panic (v : PanicValue) : Outcome α
deriving DecidableEq, Repr

/-- Everything outside the package. -/
structure World where
  /-- Models `net/url.Parse`; the error string is `err.Error()`. -/
  parseURL : String → Except String URL
  /-- The method check of `http.NewRequest`. -/
  validMethod : String → Bool
  /-- Models `x509.SystemCertPool()`. -/
  systemCertPool : Except String CertPool
  /-- Models `json.Marshal(token{Token: t})`. -/
  marshalToken : String → Except String String
  /-- The decoder behind `simplejson.NewJson`. -/
  unmarshal : String → Except String Json
  /-- Models `http.Client.Do`: the answer to a request, given all earlier events. -/
  roundTrip : List Event → HttpClient → HttpRequest → Except String Response

/-! ## Library operations with fixed behaviour -/

/-- Models `strings.Contains` on character lists. -/
def containsChars (sub : List Char) : List Char → Bool
  | [] => sub.isEmpty
  | c :: cs => sub.isPrefixOf (c :: cs) || containsChars sub cs

/-- Models `strings.Contains(s, substr)`. -/
def strings_Contains (s substr : String) : Bool :=
  containsChars substr.data s.data

/-- Models `(*Json).Get` of `simplejson`: the value under `key` when the document is an
object holding it, otherwise a document holding `nil`. -/
def Json.Get (j : Json) (key : String) : Json :=
  match j with
  | .obj kvs =>
    match kvs.lookup key with
    | some v => v
    | none => .null
  | _ => .null

/-- Models `(*Json).String` of `simplejson`: a type assertion to `string`. -/
def Json.AsString (j : Json) : Except String String :=
  match j with
  | .str s => .ok s
  | _ => .error "type assertion to string failed"

/-- Whether the document is an object that has `key`. -/
def Json.hasKey (j : Json) (key : String) : Bool :=
  match j with
  | .obj kvs => (kvs.lookup key).isSome
  | _ => false

/-- Models `http.NewRequest(method, url, body)`: an empty method means `GET`; fails on
an invalid method or a URL that does not parse. -/
def World.NewRequest (w : World) (method url : String) (body : Option String) :
    Except String HttpRequest :=
  let method := if method = "" then "GET" else method
  if !w.validMethod method then
    .error ("net/http: invalid method " ++ method)
  else
    match w.parseURL url with
    | .error e => .error e
    | .ok _ => .ok { Method := method, URL := url, Header := [], Body := body }

/-! ## The package -/

/-- The JSON text `GetToken` posts (line 36): plain concatenation, no escaping. -/
def loginBody (opts : E37Opts) : String :=
  "\x7b\"username\":\"" ++ opts.Username ++ "\",\"password\":\"" ++ opts.password ++ "\"\x7d"

/-- The one-off client of `GetToken` (lines 43-48): certificate verification
off, everything else at its zero value. -/
def loginClient : HttpClient :=
  { Timeout := 0,
    Transport := { TLSClientConfig := { MinVersion := 0, RootCAs := none, InsecureSkipVerify := true } } }

/-- Function `GetToken` (lines 34-71). Returns `(token, err)` and the extended event
log; entering the function is recorded as `Event.call "GetToken"`. The error of
`http.NewRequest` is dropped by the source, so a failure there leaves `req`
nil and `req.Header.Set` panics. -/
def GetToken (w : World) (log : List Event) (opts : E37Opts) :
    Outcome (String × Option String) × List Event :=
  let log := log ++ [Event.call "GetToken"]
  let jsonReqBody := loginBody opts
  let url := opts.URL ++ "/api/auth"
  match w.NewRequest "POST" url (some jsonReqBody) with
  | .error _ => (.panic .nilDeref, log)
  | .ok req =>
    let req := { req with Header := req.Header.Set "Content-Type" "application/json" }
    match w.roundTrip log loginClient req with
    | .error err => (.ret ("", some err), log ++ [Event.send loginClient req])
    | .ok resp =>
      let log := log ++ [Event.send loginClient req]
      match resp.Body with
      | .error err => (.ret ("", some err), log)
      | .ok respBody =>
        match w.unmarshal respBody with
        | .error err => (.ret ("", some err), log)
        | .ok jsonRespBody =>
          match (jsonRespBody.Get "token").AsString with
          | .error err => (.ret ("", some ("GetToken Error：" ++ err)), log)
          | .ok token => (.ret (token, none), log)

/-- Function `NewE37Client` (lines 83-129). -/
def NewE37Client (w : World) (log : List Event) (opts : E37Opts) :
    Outcome E37Client × List Event :=
  let uri := opts.URL
  let uri := if !strings_Contains uri "://" then "http://" ++ uri else uri
  match w.parseURL uri with
  | .error err => (.panic (.str ("invalid E37 URL: " ++ err)), log)
  | .ok u =>
    if u.Host = "" || (u.Scheme != "http" && u.Scheme != "https") then
      (.panic (.str ("invalid E37 URL: " ++ uri)), log)
    else
      match w.systemCertPool with
      | .error err => (.panic (.error err), log)
      | .ok rootCAs =>
        let tlsClientConfig : TLSConfig :=
          { MinVersion := 0x0303, RootCAs := some rootCAs, InsecureSkipVerify := false }
        let tlsClientConfig :=
          if opts.Insecure then { tlsClientConfig with InsecureSkipVerify := true }
          else tlsClientConfig
        let transport : Transport := { TLSClientConfig := tlsClientConfig }
        match GetToken w log opts with
        | (.panic v, log) => (.panic v, log)
        | (.ret (_, some err), log) => (.panic (.error err), log)
        | (.ret (token, none), log) =>
          (.ret { Opts := opts, Token := token,
                  Client := { Timeout := opts.Timeout, Transport := transport } }, log)

/-- Method `E37Client.Request` (lines 132-169). Returns `(body, err)`, `none` being a
nil slice or a nil error, and the extended event log. -/
def E37Client.Request (w : World) (log : List Event) (c : E37Client)
    (method endpoint : String) (reqBody : Option String) :
    (Option String × Option String) × List Event :=
  let url := c.Opts.URL ++ endpoint
  match w.NewRequest method url reqBody with
  | .error err => ((none, some err), log)
  | .ok req =>
    let req := { req with Header := req.Header.Set "Content-Type" "application/json" }
    let req := { req with Header := req.Header.Set "Authorization" ("Bearer " ++ c.Token) }
    match w.roundTrip log c.Client req with
    | .error err => ((none, some err), log ++ [Event.send c.Client req])
    | .ok resp =>
      let log := log ++ [Event.send c.Client req]
      if resp.StatusCode != 200 then
        ((none, some ("error handling request for " ++ endpoint ++ " http-statuscode: "
          ++ resp.Status)), log)
      else
        match resp.Body with
        | .error err => ((none, some err), log)
        | .ok body => ((some body, none), log)

/-- Method `E37Client.Ping` (lines 178-232). Returns `(b, err)`, the session after the
call (only `Token` can differ) and the extended event log. -/
def E37Client.Ping (w : World) (log : List Event) (c : E37Client) :
    Outcome (Bool × Option String) × E37Client × List Event :=
  let url := c.Opts.URL ++ "/api/auth/check"
  let method := "POST"
  match w.marshalToken c.Token with
  | .error err => (.ret (false, some err), c, log)
  | .ok jsonReqBody =>
    match w.NewRequest method url (some jsonReqBody) with
    | .error err => (.ret (false, some err), c, log)
    | .ok req =>
      let req := { req with Header := req.Header.Set "Content-Type" "application/json" }
      match w.roundTrip log c.Client req with
      | .error err => (.ret (false, some err), c, log ++ [Event.send c.Client req])
      | .ok resp =>
        let log := log ++ [Event.send c.Client req]
        match resp.Body with
        | .error err => (.ret (false, some err), c, log)
        | .ok respBody =>
          match w.unmarshal respBody with
          | .error err => (.ret (false, some err), c, log)
          | .ok jsonRespBody =>
            match (jsonRespBody.Get "username").AsString with
            | .error _ =>
              match GetToken w log c.Opts with
              | (.panic v, log) => (.panic v, c, log)
              | (.ret (token, some _), log) =>
                (.ret (false, some ("重新获取 Token 失败，响应吗：" ++ resp.Status
                  ++ "，响应体：" ++ resp.BodyRepr)), { c with Token := token }, log)
              | (.ret (token, none), log) => (.ret (true, none), { c with Token := token }, log)
            | .ok _ => (.ret (true, none), c, log)

/-- Method `E37Client.GetConcurrency` (lines 235-237). -/
def E37Client.GetConcurrency (c : E37Client) : Int :=
  c.Opts.Concurrency

/-! ## Vocabulary of the statements -/

/-- Number of times `GetToken` was entered according to an event log. -/
def getTokenCalls (log : List Event) : Nat :=
  log.count (Event.call "GetToken")

/-- The login exchange of `GetToken` (lines 36-48) on its own: the answer of
the network to the login request, or the error that prevented one. -/
def loginExchange (w : World) (log : List Event) (opts : E37Opts) : Except String Response :=
  match w.NewRequest "POST" (opts.URL ++ "/api/auth") (some (loginBody opts)) with
  | .error e => .error e
  | .ok req =>
    w.roundTrip (log ++ [Event.call "GetToken"]) loginClient
      { req with Header := req.Header.Set "Content-Type" "application/json" }

/-- The check exchange of `Ping` (lines 187-207) on its own: the request that
was sent together with the answer of the network, or the error that prevented
one. -/
def checkExchange (w : World) (log : List Event) (c : E37Client) :
    Except String (HttpRequest × Response) :=
  match w.marshalToken c.Token with
  | .error e => .error e
  | .ok jsonReqBody =>
    match w.NewRequest "POST" (c.Opts.URL ++ "/api/auth/check") (some jsonReqBody) with
    | .error e => .error e
    | .ok req =>
      let req := { req with Header := req.Header.Set "Content-Type" "application/json" }
      match w.roundTrip log c.Client req with
      | .error e => .error e
      | .ok resp => .ok (req, resp)

/-- The reasons for which `Ping` returns an error: the check exchange fails
(marshalling, request construction or transport), the body of the check
response cannot be read, it cannot be parsed as JSON, or it holds no string
under `username` and the re-authentication returns an error. -/
def PingErrorCause (w : World) (log : List Event) (c : E37Client) : Prop :=
  (∃ e, checkExchange w log c = .error e) ∨
  ∃ req resp, checkExchange w log c = .ok (req, resp) ∧
    ((∃ e, resp.Body = .error e) ∨
     ∃ body, resp.Body = .ok body ∧
       ((∃ e, w.unmarshal body = .error e) ∨
        ∃ j, w.unmarshal body = .ok j ∧ (∃ e, (j.Get "username").AsString = .error e) ∧
          ∃ t e, (GetToken w (log ++ [Event.send c.Client req]) c.Opts).1 = .ret (t, some e)))

/-- The exchange of `Request` (lines 134-152) on its own: the request that was
sent together with the answer of the network, or the error that prevented
one. -/
def requestExchange (w : World) (log : List Event) (c : E37Client)
    (method endpoint : String) (reqBody : Option String) :
    Except String (HttpRequest × Response) :=
  match w.NewRequest method (c.Opts.URL ++ endpoint) reqBody with
  | .error e => .error e
  | .ok req =>
    let req := { req with Header := req.Header.Set "Content-Type" "application/json" }
    let req := { req with Header := req.Header.Set "Authorization" ("Bearer " ++ c.Token) }
    match w.roundTrip log c.Client req with
    | .error e => .error e
    | .ok resp => .ok (req, resp)

/-- The URL that `NewE37Client` validates: `http://` is put in front when the
configured URL has no `://`. -/
def validatedURI (opts : E37Opts) : String :=
  if strings_Contains opts.URL "://" then opts.URL else "http://" ++ opts.URL

/-- The URL check of `NewE37Client`: the validated URL parses, its host is not
empty and its scheme is `http` or `https`. -/
def URLAccepted (w : World) (opts : E37Opts) : Prop :=
  ∃ u, w.parseURL (validatedURI opts) = .ok u ∧ u.Host ≠ "" ∧
    (u.Scheme = "http" ∨ u.Scheme = "https")

/-! ## Worlds for the examples -/

/-- A decoder that knows the handful of bodies used in the examples. -/
def demoUnmarshal (s : String) : Except String Json :=
  if s = "\x7b\"token\":\"T1\"\x7d" then .ok (.obj [("token", .str "T1")])
  else if s = "\x7b\"token\":\"T2\"\x7d" then .ok (.obj [("token", .str "T2")])
  else if s = "\x7b\"token\":\"abc\"\x7d" then .ok (.obj [("token", .str "abc")])
  else if s = "\x7b\"msg\":\"invalid\"\x7d" then .ok (.obj [("msg", .str "invalid")])
  else if s = "\x7b\"username\":\"admin\"\x7d" then .ok (.obj [("username", .str "admin")])
  else if s = "\x7b\"username\":5\x7d" then .ok (.obj [("username", .num "5")])
  else .error "invalid character looking for beginning of value"

/-- A URL parser that knows `host:8443` with and without `http://`, the way
`net/url` reads them. -/
def demoParseURL (s : String) : Except String URL :=
  if "http://host:8443".data.isPrefixOf s.data then .ok { Scheme := "http", Host := "host:8443" }
  else if "ftp://host".data.isPrefixOf s.data then .ok { Scheme := "ftp", Host := "host" }
  else if "host:8443".data.isPrefixOf s.data then .ok { Scheme := "host", Host := "" }
  else .error ("parse \"" ++ s ++ "\": invalid URI")

/-- A response with a readable body. -/
def mkResponse (code : Int) (status body : String) : Response :=
  { Status := status, StatusCode := code, Body := .ok body, BodyRepr := "&\x7b\x7d" }

/-- A network with a scripted check endpoint and a scripted login endpoint:
the n-th login request (counting from the log) gets the n-th entry of
`logins`; everything else is refused. -/
def demoWorld (check : Except String Response) (logins : List (Except String Response)) : World :=
  { parseURL := demoParseURL
    validMethod := fun m => m = "GET" || m = "POST"
    systemCertPool := .ok []
    marshalToken := fun t => .ok ("\x7b\"token\":\"" ++ t ++ "\"\x7d")
    unmarshal := demoUnmarshal
    roundTrip := fun log _ req =>
      if req.URL = "http://host:8443/api/auth/check" then check
      else if req.URL = "http://host:8443/api/auth" then
        match logins.get? (getTokenCalls log - 1) with
        | some r => r
        | none => .error "connection refused"
      else .error "connection refused" }

/-- A network whose check endpoint always gives `check` and whose login
endpoint always gives `login`, whatever happened before. -/
def steadyWorld (check login : Except String Response) : World :=
  { parseURL := demoParseURL
    validMethod := fun m => m = "GET" || m = "POST"
    systemCertPool := .ok []
    marshalToken := fun t => .ok ("\x7b\"token\":\"" ++ t ++ "\"\x7d")
    unmarshal := demoUnmarshal
    roundTrip := fun _ _ req =>
      if req.URL = "http://host:8443/api/auth/check" then check
      else if req.URL = "http://host:8443/api/auth" then login
      else .error "connection refused" }

/-- A network that gives `answer` to every request. -/
def dataWorld (answer : Except String Response) : World :=
  { parseURL := demoParseURL
    validMethod := fun m => m = "GET" || m = "POST"
    systemCertPool := .ok []
    marshalToken := fun t => .ok ("\x7b\"token\":\"" ++ t ++ "\"\x7d")
    unmarshal := demoUnmarshal
    roundTrip := fun _ _ _ => answer }

/-- The options of the concrete scenario. -/
def demoOpts : E37Opts :=
  { URL := "http://host:8443", Username := "admin", password := "admin",
    Concurrency := 10, Timeout := 1600000000, Insecure := true }

/-- The session of the concrete scenario after construction, holding `T1`. -/
def demoClient : E37Client :=
  { Opts := demoOpts, Token := "T1",
    Client := { Timeout := 1600000000,
                Transport := { TLSClientConfig :=
                  { MinVersion := 0x0303, RootCAs := some [], InsecureSkipVerify := true } } } }

/-! ## Basic facts -/

theorem getTokenCalls_append (l₁ l₂ : List Event) :
    getTokenCalls (l₁ ++ l₂) = getTokenCalls l₁ + getTokenCalls l₂ := by
  simp [getTokenCalls]

theorem getTokenCalls_call : getTokenCalls [Event.call "GetToken"] = 1 := by
  simp [getTokenCalls]

theorem getTokenCalls_send (cl : HttpClient) (r : HttpRequest) :
    getTokenCalls [Event.send cl r] = 0 := by
  simp [getTokenCalls]

/-- The events of a `GetToken` call: its entry, then at most one request. -/
theorem GetToken_log (w : World) (log : List Event) (opts : E37Opts) :
    (GetToken w log opts).2 = log ++ [Event.call "GetToken"] ∨
    ∃ req, (GetToken w log opts).2 =
      log ++ [Event.call "GetToken"] ++ [Event.send loginClient req] := by
  unfold GetToken
  simp only []
  split
  · exact Or.inl rfl
  · right
    split
    · exact ⟨_, rfl⟩
    · split
      · exact ⟨_, rfl⟩
      · split
        · exact ⟨_, rfl⟩
        · split <;> exact ⟨_, rfl⟩

/-- Every call of `GetToken` is recorded once, whatever its outcome. -/
theorem GetToken_calls (w : World) (log : List Event) (opts : E37Opts) :
    getTokenCalls (GetToken w log opts).2 = getTokenCalls log + 1 := by
  rcases GetToken_log w log opts with h | ⟨req, h⟩
  · rw [h, getTokenCalls_append, getTokenCalls_call]
  · rw [h, getTokenCalls_append, getTokenCalls_append, getTokenCalls_call, getTokenCalls_send]

/-- When `GetToken` returns an error, the token it returns is empty. -/
theorem GetToken_error_token (w : World) (log : List Event) (opts : E37Opts)
    (t e : String) (h : (GetToken w log opts).1 = .ret (t, some e)) : t = "" := by
  unfold GetToken at h
  simp only [] at h
  split at h
  · simp at h
  · split at h
    · simp at h; exact h.1.symm
    · split at h
      · simp at h; exact h.1.symm
      · split at h
        · simp at h; exact h.1.symm
        · split at h
          · simp at h; exact h.1.symm
          · simp at h

/-- How `GetToken` continues once the login exchange was answered. -/
theorem GetToken_of_loginExchange (w : World) (log : List Event) (opts : E37Opts)
    (resp : Response) (h : loginExchange w log opts = .ok resp) :
    (GetToken w log opts).1 =
      match resp.Body with
      | .error err => .ret ("", some err)
      | .ok respBody =>
        match w.unmarshal respBody with
        | .error err => .ret ("", some err)
        | .ok j =>
          match (j.Get "token").AsString with
          | .error err => .ret ("", some ("GetToken Error：" ++ err))
          | .ok token => .ret (token, none) := by
  unfold loginExchange at h
  unfold GetToken
  simp only []
  split at h
  · simp at h
  · rename_i req hreq
    rw [h]
    simp only []
    split
    · rfl
    · split
      · rfl
      · split <;> rfl

/-- How `Ping` continues once the check exchange was answered. -/
theorem Ping_of_checkExchange (w : World) (log : List Event) (c : E37Client)
    (req : HttpRequest) (resp : Response) (h : checkExchange w log c = .ok (req, resp)) :
    c.Ping w log =
      match resp.Body with
      | .error err => (.ret (false, some err), c, log ++ [Event.send c.Client req])
      | .ok respBody =>
        match w.unmarshal respBody with
        | .error err => (.ret (false, some err), c, log ++ [Event.send c.Client req])
        | .ok j =>
          match (j.Get "username").AsString with
          | .error _ =>
            match GetToken w (log ++ [Event.send c.Client req]) c.Opts with
            | (.panic v, log) => (.panic v, c, log)
            | (.ret (token, some _), log) =>
              (.ret (false, some ("重新获取 Token 失败，响应吗：" ++ resp.Status
                ++ "，响应体：" ++ resp.BodyRepr)), { c with Token := token }, log)
            | (.ret (token, none), log) => (.ret (true, none), { c with Token := token }, log)
          | .ok _ => (.ret (true, none), c, log ++ [Event.send c.Client req]) := by
  unfold checkExchange at h
  unfold E37Client.Ping
  simp only []
  split at h
  · simp at h
  · split at h
    · simp at h
    · simp only [] at h
      split at h
      · simp at h
      · rename_i resp0 hresp
        simp only [Except.ok.injEq, Prod.mk.injEq] at h
        obtain ⟨h1, h2⟩ := h
        subst h1 h2
        rfl

/-- When the check exchange fails, `Ping` returns that error, keeps the session
and does not enter `GetToken`. -/
theorem Ping_of_checkExchange_error (w : World) (log : List Event) (c : E37Client)
    (e : String) (h : checkExchange w log c = .error e) :
    (c.Ping w log).1 = .ret (false, some e) ∧ (c.Ping w log).2.1 = c ∧
      getTokenCalls (c.Ping w log).2.2 = getTokenCalls log := by
  unfold checkExchange at h
  unfold E37Client.Ping
  simp only []
  split at h
  · simp only [Except.error.injEq] at h
    subst h
    simp
  · split at h
    · simp only [Except.error.injEq] at h
      subst h
      simp
    · simp only [] at h
      split at h
      · simp only [Except.error.injEq] at h
        subst h
        simp [getTokenCalls_append, getTokenCalls_send]
      · simp at h

/-- A document without the key has no string under it. -/
theorem Json.AsString_Get_of_hasKey_false (j : Json) (key : String)
    (h : j.hasKey key = false) :
    (j.Get key).AsString = .error "type assertion to string failed" := by
  cases j with
  | obj kvs =>
    simp only [Json.hasKey] at h
    cases hl : kvs.lookup key with
    | none => simp [Json.Get, hl, Json.AsString]
    | some v => simp [hl] at h
  | _ => simp [Json.Get, Json.AsString]

/-! ## Claims about `GetToken` -/

/-- C5: when the login response carries a JSON object whose `token` field is the
string `t`, `GetToken` returns `(t, nil)`; nothing is assumed about the status
code of the response. -/
theorem GetToken_returns_token_for_any_status (w : World) (log : List Event) (opts : E37Opts)
    (resp : Response) (body : String) (kvs : List (String × Json)) (t : String)
    (hx : loginExchange w log opts = .ok resp) (hb : resp.Body = .ok body)
    (hj : w.unmarshal body = .ok (.obj kvs)) (hk : kvs.lookup "token" = some (.str t)) :
    (GetToken w log opts).1 = .ret (t, none) := by
  rw [GetToken_of_loginExchange w log opts resp hx]
  simp [hb, hj, Json.Get, hk, Json.AsString]

/-- A login response `500` with body `{"token":"abc"}` still yields `"abc"`. -/
theorem GetToken_returns_token_for_any_status_witness :
    (mkResponse 500 "500 Internal Server Error" "\x7b\"token\":\"abc\"\x7d").StatusCode = 500 ∧
    (GetToken (demoWorld (.error "unused")
        [.ok (mkResponse 500 "500 Internal Server Error" "\x7b\"token\":\"abc\"\x7d")])
      [] demoOpts).1 = .ret ("abc", none) :=
  ⟨rfl, GetToken_returns_token_for_any_status _ [] demoOpts
      (mkResponse 500 "500 Internal Server Error" "\x7b\"token\":\"abc\"\x7d")
      "\x7b\"token\":\"abc\"\x7d" [("token", .str "abc")] "abc"
      rfl rfl rfl rfl⟩

/-- C6: when the login response parses as JSON but has no `token` key,
`GetToken` returns the empty token together with an error. -/
theorem GetToken_missing_token_key (w : World) (log : List Event) (opts : E37Opts)
    (resp : Response) (body : String) (j : Json)
    (hx : loginExchange w log opts = .ok resp) (hb : resp.Body = .ok body)
    (hj : w.unmarshal body = .ok j) (hk : j.hasKey "token" = false) :
    ∃ e, (GetToken w log opts).1 = .ret ("", some e) := by
  rw [GetToken_of_loginExchange w log opts resp hx]
  simp [hb, hj, Json.AsString_Get_of_hasKey_false j "token" hk]

/-- A login response `{"msg":"invalid"}` gives an error and the empty token. -/
theorem GetToken_missing_token_key_witness :
    ∃ e, (GetToken (demoWorld (.error "unused")
        [.ok (mkResponse 200 "200 OK" "\x7b\"msg\":\"invalid\"\x7d")]) [] demoOpts).1
      = .ret ("", some e) :=
  GetToken_missing_token_key _ [] demoOpts
    (mkResponse 200 "200 OK" "\x7b\"msg\":\"invalid\"\x7d")
    "\x7b\"msg\":\"invalid\"\x7d" (.obj [("msg", .str "invalid")]) rfl rfl rfl rfl

/-! ## Claims about `Ping` -/

/-- C1: when the check response parses as JSON without a `username` field and
the re-authentication that follows yields `t2`, `Ping` enters `GetToken` exactly
once, returns `(true, nil)` and leaves `t2` as the session token. -/
theorem Ping_refreshes_token (w : World) (log : List Event) (c : E37Client)
    (req : HttpRequest) (resp : Response) (body : String) (j : Json) (t2 : String)
    (hx : checkExchange w log c = .ok (req, resp)) (hb : resp.Body = .ok body)
    (hj : w.unmarshal body = .ok j) (hk : j.hasKey "username" = false)
    (hg : (GetToken w (log ++ [Event.send c.Client req]) c.Opts).1 = .ret (t2, none)) :
    (c.Ping w log).1 = .ret (true, none) ∧
    (c.Ping w log).2.1 = { c with Token := t2 } ∧
    (c.Ping w log).2.1.Token = t2 ∧
    getTokenCalls (c.Ping w log).2.2 = getTokenCalls log + 1 := by
  have hc := GetToken_calls w (log ++ [Event.send c.Client req]) c.Opts
  rw [getTokenCalls_append, getTokenCalls_send] at hc
  rw [Ping_of_checkExchange w log c req resp hx]
  simp only [hb, hj, Json.AsString_Get_of_hasKey_false j "username" hk]
  generalize GetToken w (log ++ [Event.send c.Client req]) c.Opts = r at hg hc
  obtain ⟨o, l⟩ := r
  simp only at hg hc
  subst hg
  exact ⟨rfl, rfl, rfl, by simpa using hc⟩

/-- The concrete scenario: token `T1`, check response `{"msg":"invalid"}`,
login response `{"token":"T2"}`. -/
theorem Ping_refreshes_token_witness :
    (demoClient.Ping (demoWorld (.ok (mkResponse 200 "200 OK" "\x7b\"msg\":\"invalid\"\x7d"))
      [.ok (mkResponse 200 "200 OK" "\x7b\"token\":\"T2\"\x7d")]) []).1 = .ret (true, none) ∧
    (demoClient.Ping (demoWorld (.ok (mkResponse 200 "200 OK" "\x7b\"msg\":\"invalid\"\x7d"))
      [.ok (mkResponse 200 "200 OK" "\x7b\"token\":\"T2\"\x7d")]) []).2.1
        = { demoClient with Token := "T2" } ∧
    (demoClient.Ping (demoWorld (.ok (mkResponse 200 "200 OK" "\x7b\"msg\":\"invalid\"\x7d"))
      [.ok (mkResponse 200 "200 OK" "\x7b\"token\":\"T2\"\x7d")]) []).2.1.Token = "T2" ∧
    getTokenCalls (demoClient.Ping
      (demoWorld (.ok (mkResponse 200 "200 OK" "\x7b\"msg\":\"invalid\"\x7d"))
        [.ok (mkResponse 200 "200 OK" "\x7b\"token\":\"T2\"\x7d")]) []).2.2
      = getTokenCalls [] + 1 :=
  Ping_refreshes_token _ [] demoClient
    { Method := "POST", URL := "http://host:8443/api/auth/check",
      Header := [("Content-Type", "application/json")],
      Body := some "\x7b\"token\":\"T1\"\x7d" }
    (mkResponse 200 "200 OK" "\x7b\"msg\":\"invalid\"\x7d")
    "\x7b\"msg\":\"invalid\"\x7d" (.obj [("msg", .str "invalid")]) "T2" rfl rfl rfl rfl rfl

/-- C2 as stated fails: a check response `{"username":5}` contains a `username`
field, yet `Ping` re-authenticates and the token changes from `T1` to `T2`. -/
theorem Ping_username_present_refuted :
    ¬ ∀ (w : World) (log : List Event) (c : E37Client) (req : HttpRequest) (resp : Response)
        (body : String) (j : Json),
        checkExchange w log c = .ok (req, resp) → resp.Body = .ok body →
        w.unmarshal body = .ok j → j.hasKey "username" = true →
        (c.Ping w log).1 = .ret (true, none) ∧ (c.Ping w log).2.1.Token = c.Token ∧
          getTokenCalls (c.Ping w log).2.2 = getTokenCalls log := by
  intro h
  have h1 := h (demoWorld (.ok (mkResponse 200 "200 OK" "\x7b\"username\":5\x7d"))
      [.ok (mkResponse 200 "200 OK" "\x7b\"token\":\"T2\"\x7d")]) [] demoClient
    { Method := "POST", URL := "http://host:8443/api/auth/check",
      Header := [("Content-Type", "application/json")],
      Body := some "\x7b\"token\":\"T1\"\x7d" }
    (mkResponse 200 "200 OK" "\x7b\"username\":5\x7d")
    "\x7b\"username\":5\x7d" (.obj [("username", .num "5")]) rfl rfl rfl rfl
  have h2 : (demoClient.Ping (demoWorld (.ok (mkResponse 200 "200 OK" "\x7b\"username\":5\x7d"))
      [.ok (mkResponse 200 "200 OK" "\x7b\"token\":\"T2\"\x7d")]) []).2.1.Token = "T2" := rfl
  rw [h2] at h1
  exact absurd h1.2.1 (by decide)

/-- C2, amended: when the check response parses as JSON and holds a string
under `username`, `Ping` returns `(true, nil)`, does not enter `GetToken` and
leaves the session, its token included, as it was. -/
theorem Ping_valid_token_unchanged (w : World) (log : List Event) (c : E37Client)
    (req : HttpRequest) (resp : Response) (body : String) (j : Json) (name : String)
    (hx : checkExchange w log c = .ok (req, resp)) (hb : resp.Body = .ok body)
    (hj : w.unmarshal body = .ok j) (hk : j.Get "username" = .str name) :
    (c.Ping w log).1 = .ret (true, none) ∧
    (c.Ping w log).2.1 = c ∧
    (c.Ping w log).2.1.Token = c.Token ∧
    (c.Ping w log).2.2 = log ++ [Event.send c.Client req] ∧
    getTokenCalls (c.Ping w log).2.2 = getTokenCalls log := by
  rw [Ping_of_checkExchange w log c req resp hx]
  simp [hb, hj, hk, Json.AsString, getTokenCalls_append, getTokenCalls_send]

/-- A check response `{"username":"admin"}` leaves `T1` in place although the
login endpoint would hand out `T2`. -/
theorem Ping_valid_token_unchanged_witness :
    (demoClient.Ping (demoWorld (.ok (mkResponse 200 "200 OK" "\x7b\"username\":\"admin\"\x7d"))
      [.ok (mkResponse 200 "200 OK" "\x7b\"token\":\"T2\"\x7d")]) []).1 = .ret (true, none) ∧
    (demoClient.Ping (demoWorld (.ok (mkResponse 200 "200 OK" "\x7b\"username\":\"admin\"\x7d"))
      [.ok (mkResponse 200 "200 OK" "\x7b\"token\":\"T2\"\x7d")]) []).2.1.Token = "T1" :=
  have h := Ping_valid_token_unchanged
    (demoWorld (.ok (mkResponse 200 "200 OK" "\x7b\"username\":\"admin\"\x7d"))
      [.ok (mkResponse 200 "200 OK" "\x7b\"token\":\"T2\"\x7d")]) [] demoClient
    { Method := "POST", URL := "http://host:8443/api/auth/check",
      Header := [("Content-Type", "application/json")],
      Body := some "\x7b\"token\":\"T1\"\x7d" }
    (mkResponse 200 "200 OK" "\x7b\"username\":\"admin\"\x7d")
    "\x7b\"username\":\"admin\"\x7d" (.obj [("username", .str "admin")]) "admin" rfl rfl rfl rfl
  ⟨h.1, h.2.2.1⟩

/-- C4 as stated fails: on a check response whose body is not JSON, `Ping` does
not enter `GetToken` at all. -/
theorem Ping_parse_error_reauth_refuted :
    ¬ ∀ (w : World) (log : List Event) (c : E37Client) (req : HttpRequest) (resp : Response)
        (body e : String),
        checkExchange w log c = .ok (req, resp) → resp.Body = .ok body →
        w.unmarshal body = .error e →
        getTokenCalls (c.Ping w log).2.2 = getTokenCalls log + 1 ∧
          ∀ t, (GetToken w (log ++ [Event.send c.Client req]) c.Opts).1 = .ret (t, none) →
            (c.Ping w log).2.1.Token = t := by
  intro h
  have h1 := h (demoWorld (.ok (mkResponse 200 "200 OK" "<html>"))
      [.ok (mkResponse 200 "200 OK" "\x7b\"token\":\"T2\"\x7d")]) [] demoClient
    { Method := "POST", URL := "http://host:8443/api/auth/check",
      Header := [("Content-Type", "application/json")],
      Body := some "\x7b\"token\":\"T1\"\x7d" }
    (mkResponse 200 "200 OK" "<html>")
    "<html>" "invalid character looking for beginning of value" rfl rfl rfl
  have h2 : (demoClient.Ping (demoWorld (.ok (mkResponse 200 "200 OK" "<html>"))
      [.ok (mkResponse 200 "200 OK" "\x7b\"token\":\"T2\"\x7d")]) []).2.1.Token = "T1" := rfl
  have h3 := h1.2 "T2" rfl
  rw [h2] at h3
  exact absurd h3 (by decide)

/-- C4, amended: when the body of the check response does not parse as JSON,
`Ping` returns `(false, err)` with the decoder's error, does not enter
`GetToken` and leaves the session, its token included, as it was. -/
theorem Ping_parse_error_returns (w : World) (log : List Event) (c : E37Client)
    (req : HttpRequest) (resp : Response) (body e : String)
    (hx : checkExchange w log c = .ok (req, resp)) (hb : resp.Body = .ok body)
    (hj : w.unmarshal body = .error e) :
    (c.Ping w log).1 = .ret (false, some e) ∧
    (c.Ping w log).2.1 = c ∧
    (c.Ping w log).2.1.Token = c.Token ∧
    (c.Ping w log).2.2 = log ++ [Event.send c.Client req] ∧
    getTokenCalls (c.Ping w log).2.2 = getTokenCalls log := by
  rw [Ping_of_checkExchange w log c req resp hx]
  simp [hb, hj, getTokenCalls_append, getTokenCalls_send]

/-- A check response `<html>` makes `Ping` return the decoder's error and keep
`T1`, although the login endpoint would hand out `T2`. -/
theorem Ping_parse_error_returns_witness :
    (demoClient.Ping (demoWorld (.ok (mkResponse 200 "200 OK" "<html>"))
      [.ok (mkResponse 200 "200 OK" "\x7b\"token\":\"T2\"\x7d")]) []).1
      = .ret (false, some "invalid character looking for beginning of value") ∧
    (demoClient.Ping (demoWorld (.ok (mkResponse 200 "200 OK" "<html>"))
      [.ok (mkResponse 200 "200 OK" "\x7b\"token\":\"T2\"\x7d")]) []).2.1.Token = "T1" ∧
    getTokenCalls (demoClient.Ping (demoWorld (.ok (mkResponse 200 "200 OK" "<html>"))
      [.ok (mkResponse 200 "200 OK" "\x7b\"token\":\"T2\"\x7d")]) []).2.2 = getTokenCalls [] :=
  have h := Ping_parse_error_returns
    (demoWorld (.ok (mkResponse 200 "200 OK" "<html>"))
      [.ok (mkResponse 200 "200 OK" "\x7b\"token\":\"T2\"\x7d")]) [] demoClient
    { Method := "POST", URL := "http://host:8443/api/auth/check",
      Header := [("Content-Type", "application/json")],
      Body := some "\x7b\"token\":\"T1\"\x7d" }
    (mkResponse 200 "200 OK" "<html>")
    "<html>" "invalid character looking for beginning of value" rfl rfl rfl
  ⟨h.1, h.2.2.1, h.2.2.2.2⟩

/-- C10: when the check response parses as JSON without a `username` field and
the re-authentication that follows returns an error, `Ping` returns
`(false, err)` with a non-nil error and the session token is left empty. -/
theorem Ping_failed_reauth_clears_token (w : World) (log : List Event) (c : E37Client)
    (req : HttpRequest) (resp : Response) (body : String) (j : Json) (t e : String)
    (hx : checkExchange w log c = .ok (req, resp)) (hb : resp.Body = .ok body)
    (hj : w.unmarshal body = .ok j) (hk : j.hasKey "username" = false)
    (hg : (GetToken w (log ++ [Event.send c.Client req]) c.Opts).1 = .ret (t, some e)) :
    (∃ msg, (c.Ping w log).1 = .ret (false, some msg)) ∧
    (c.Ping w log).2.1.Token = "" ∧
    (c.Ping w log).2.1 = { c with Token := "" } := by
  have ht := GetToken_error_token w _ c.Opts t e hg
  subst ht
  rw [Ping_of_checkExchange w log c req resp hx]
  simp only [hb, hj, Json.AsString_Get_of_hasKey_false j "username" hk]
  generalize GetToken w (log ++ [Event.send c.Client req]) c.Opts = r at hg
  obtain ⟨o, l⟩ := r
  simp only at hg
  subst hg
  exact ⟨⟨_, rfl⟩, rfl, rfl⟩

/-- Token `T1`, check response `{"msg":"invalid"}`, login endpoint unreachable:
the session token becomes empty. -/
theorem Ping_failed_reauth_clears_token_witness :
    (∃ msg, (demoClient.Ping
      (demoWorld (.ok (mkResponse 200 "200 OK" "\x7b\"msg\":\"invalid\"\x7d")) []) []).1
        = .ret (false, some msg)) ∧
    (demoClient.Ping
      (demoWorld (.ok (mkResponse 200 "200 OK" "\x7b\"msg\":\"invalid\"\x7d")) []) []).2.1.Token
        = "" ∧ demoClient.Token = "T1" :=
  have h := Ping_failed_reauth_clears_token
    (demoWorld (.ok (mkResponse 200 "200 OK" "\x7b\"msg\":\"invalid\"\x7d")) []) [] demoClient
    { Method := "POST", URL := "http://host:8443/api/auth/check",
      Header := [("Content-Type", "application/json")],
      Body := some "\x7b\"token\":\"T1\"\x7d" }
    (mkResponse 200 "200 OK" "\x7b\"msg\":\"invalid\"\x7d")
    "\x7b\"msg\":\"invalid\"\x7d" (.obj [("msg", .str "invalid")]) "" "connection refused"
    rfl rfl rfl rfl rfl
  ⟨h.1, h.2.1, rfl⟩

/-- Function `GetToken` panics only when `http.NewRequest` fails on the login URL. -/
theorem GetToken_panic (w : World) (log : List Event) (opts : E37Opts) (v : PanicValue)
    (h : (GetToken w log opts).1 = .panic v) :
    ∃ e, w.NewRequest "POST" (opts.URL ++ "/api/auth") (some (loginBody opts)) = .error e := by
  unfold GetToken at h
  simp only [] at h
  split at h
  · rename_i e he
    exact ⟨e, he⟩
  · split at h
    · simp at h
    · split at h
      · simp at h
      · split at h
        · simp at h
        · split at h <;> simp at h

/-- The only panic of `GetToken` is the nil dereference. -/
theorem GetToken_panic_value (w : World) (log : List Event) (opts : E37Opts) (v : PanicValue)
    (h : (GetToken w log opts).1 = .panic v) : v = .nilDeref := by
  unfold GetToken at h
  simp only [] at h
  split at h
  · simp only [Outcome.panic.injEq] at h
    exact h.symm
  · split at h
    · simp at h
    · split at h
      · simp at h
      · split at h
        · simp at h
        · split at h <;> simp at h

/-- C3 as stated fails: when the check request gets no answer (transport
error), `Ping` returns an error although no body failed to parse and every
`GetToken` call in that world succeeds. -/
theorem Ping_error_causes_refuted :
    ¬ ∀ (w : World) (log : List Event) (c : E37Client) (b : Bool) (e : String),
        (c.Ping w log).1 = .ret (b, some e) →
        (∃ req resp body e', checkExchange w log c = .ok (req, resp) ∧ resp.Body = .ok body ∧
            w.unmarshal body = .error e') ∨
        (∃ log1 t e', (GetToken w log1 c.Opts).1 = .ret (t, some e')) := by
  intro h
  rcases h (steadyWorld (.error "dial tcp: i/o timeout")
      (.ok (mkResponse 200 "200 OK" "\x7b\"token\":\"T2\"\x7d"))) [] demoClient false
      "dial tcp: i/o timeout" rfl with ⟨req, resp, body, e', hx, -, -⟩ | ⟨log1, t, e', hg⟩
  · have hx' : checkExchange (steadyWorld (.error "dial tcp: i/o timeout")
        (.ok (mkResponse 200 "200 OK" "\x7b\"token\":\"T2\"\x7d"))) [] demoClient
        = .error "dial tcp: i/o timeout" := rfl
    rw [hx'] at hx
    exact absurd hx (by simp)
  · have hl : loginExchange (steadyWorld (.error "dial tcp: i/o timeout")
        (.ok (mkResponse 200 "200 OK" "\x7b\"token\":\"T2\"\x7d"))) log1 demoOpts
        = .ok (mkResponse 200 "200 OK" "\x7b\"token\":\"T2\"\x7d") := rfl
    rw [show demoClient.Opts = demoOpts from rfl, GetToken_of_loginExchange _ _ _ _ hl] at hg
    have hv : (match (mkResponse 200 "200 OK" "\x7b\"token\":\"T2\"\x7d").Body with
      | .error err => Outcome.ret ("", some err)
      | .ok respBody =>
        match (steadyWorld (.error "dial tcp: i/o timeout")
          (.ok (mkResponse 200 "200 OK" "\x7b\"token\":\"T2\"\x7d"))).unmarshal respBody with
        | .error err => .ret ("", some err)
        | .ok j =>
          match (j.Get "token").AsString with
          | .error err => .ret ("", some ("GetToken Error：" ++ err))
          | .ok token => .ret (token, none)) = Outcome.ret ("T2", none) := rfl
    rw [hv] at hg
    exact absurd hg (by simp)

/-- With the check exchange answered, the reasons for an error are those that
concern this answer. -/
theorem PingErrorCause_of_checkExchange (w : World) (log : List Event) (c : E37Client)
    (req : HttpRequest) (resp : Response) (hx : checkExchange w log c = .ok (req, resp)) :
    PingErrorCause w log c ↔
      ((∃ e, resp.Body = .error e) ∨
       ∃ body, resp.Body = .ok body ∧
         ((∃ e, w.unmarshal body = .error e) ∨
          ∃ j, w.unmarshal body = .ok j ∧ (∃ e, (j.Get "username").AsString = .error e) ∧
            ∃ t e, (GetToken w (log ++ [Event.send c.Client req]) c.Opts).1
              = .ret (t, some e))) := by
  unfold PingErrorCause
  rw [hx]
  constructor
  · rintro (⟨e, h⟩ | ⟨req1, resp1, h, rest⟩)
    · simp at h
    · simp only [Except.ok.injEq, Prod.mk.injEq] at h
      obtain ⟨h1, h2⟩ := h
      subst h1 h2
      exact rest
  · intro h
    exact Or.inr ⟨req, resp, rfl, h⟩

/-- Shape of the three-part statement when a call returned an error for a
listed reason. -/
theorem outcome_error_case {P R : Prop} {o : Outcome (Bool × Option String)} {e0 : String}
    (hp : o = .ret (false, some e0)) (hc : P) :
    (∀ b e, o = .ret (b, some e) → b = false ∧ P) ∧
    (P → ∃ e, o = .ret (false, some e)) ∧
    (¬ P → o = .ret (true, none) ∨ ∃ v, o = .panic v ∧ R) := by
  subst hp
  refine ⟨fun b e h => ?_, fun _ => ⟨e0, rfl⟩, fun hn => absurd hc hn⟩
  simp only [Outcome.ret.injEq, Prod.mk.injEq] at h
  exact ⟨h.1.symm, hc⟩

/-- Shape of the three-part statement when a call returned `(true, nil)` and
no listed reason holds. -/
theorem outcome_success_case {P R : Prop} {o : Outcome (Bool × Option String)}
    (hp : o = .ret (true, none)) (hn : ¬ P) :
    (∀ b e, o = .ret (b, some e) → b = false ∧ P) ∧
    (P → ∃ e, o = .ret (false, some e)) ∧
    (¬ P → o = .ret (true, none) ∨ ∃ v, o = .panic v ∧ R) := by
  subst hp
  refine ⟨fun b e h => ?_, fun hc => absurd hc hn, fun _ => Or.inl rfl⟩
  simp at h

/-- Shape of the three-part statement when a call panicked and no listed
reason holds. -/
theorem outcome_panic_case {P R : Prop} {o : Outcome (Bool × Option String)} {v : PanicValue}
    (hp : o = .panic v) (hn : ¬ P) (hr : R) :
    (∀ b e, o = .ret (b, some e) → b = false ∧ P) ∧
    (P → ∃ e, o = .ret (false, some e)) ∧
    (¬ P → o = .ret (true, none) ∨ ∃ v, o = .panic v ∧ R) := by
  subst hp
  refine ⟨fun b e h => ?_, fun hc => absurd hc hn, fun _ => Or.inr ⟨v, rfl, hr⟩⟩
  simp at h

/-- C3, amended: `Ping` returns a non-nil error exactly for the reasons listed
in `PingErrorCause` (the check exchange fails, the body of the check response
cannot be read or parsed, or the re-authentication returns an error), always
together with `false`; in every other case `Ping` either returns `(true, nil)`
or does not return at all: it panics, which happens only when
`http.NewRequest` fails on the login URL. -/
theorem Ping_error_iff_cause (w : World) (log : List Event) (c : E37Client) :
    (∀ b e, (c.Ping w log).1 = .ret (b, some e) → b = false ∧ PingErrorCause w log c) ∧
    (PingErrorCause w log c → ∃ e, (c.Ping w log).1 = .ret (false, some e)) ∧
    (¬ PingErrorCause w log c →
      (c.Ping w log).1 = .ret (true, none) ∨
      ∃ v, (c.Ping w log).1 = .panic v ∧
        ∃ e, w.NewRequest "POST" (c.Opts.URL ++ "/api/auth") (some (loginBody c.Opts))
          = .error e) := by
  cases hx : checkExchange w log c with
  | error e0 =>
    exact outcome_error_case (Ping_of_checkExchange_error w log c e0 hx).1 (Or.inl ⟨e0, hx⟩)
  | ok rr =>
    obtain ⟨req, resp⟩ := rr
    have hiff := PingErrorCause_of_checkExchange w log c req resp hx
    have hP := Ping_of_checkExchange w log c req resp hx
    cases hb : resp.Body with
    | error e1 =>
      rw [hb] at hP
      exact outcome_error_case (by rw [hP]) (hiff.mpr (Or.inl ⟨e1, hb⟩))
    | ok body =>
      rw [hb] at hP
      simp only [] at hP
      cases hj : w.unmarshal body with
      | error e2 =>
        rw [hj] at hP
        exact outcome_error_case (by rw [hP]) (hiff.mpr (Or.inr ⟨body, hb, Or.inl ⟨e2, hj⟩⟩))
      | ok j =>
        rw [hj] at hP
        simp only [] at hP
        cases hs : (j.Get "username").AsString with
        | ok name =>
          rw [hs] at hP
          refine outcome_success_case (by rw [hP]) ?_
          rw [hiff]
          rintro (⟨e, h⟩ | ⟨b1, hb1, ⟨e, h⟩ | ⟨j1, hj1, ⟨e, h⟩, -⟩⟩)
          · rw [hb] at h; simp at h
          · rw [hb] at hb1
            simp only [Except.ok.injEq] at hb1
            subst hb1
            rw [hj] at h; simp at h
          · rw [hb] at hb1
            simp only [Except.ok.injEq] at hb1
            subst hb1
            rw [hj] at hj1
            simp only [Except.ok.injEq] at hj1
            subst hj1
            rw [hs] at h; simp at h
        | error e3 =>
          rw [hs] at hP
          simp only [] at hP
          cases hg : GetToken w (log ++ [Event.send c.Client req]) c.Opts with
          | mk o l =>
            have hg1 : (GetToken w (log ++ [Event.send c.Client req]) c.Opts).1 = o := by
              rw [hg]
            rw [hg] at hP
            have hno : ∀ (o' : Outcome (String × Option String)),
                (∀ t e, o' ≠ .ret (t, some e)) →
                (GetToken w (log ++ [Event.send c.Client req]) c.Opts).1 = o' →
                ¬ PingErrorCause w log c := by
              intro o' ho' hgo'
              rw [hiff]
              rintro (⟨e, h⟩ | ⟨b1, hb1, ⟨e, h⟩ | ⟨j1, hj1, -, t, e, h⟩⟩)
              · rw [hb] at h; simp at h
              · rw [hb] at hb1
                simp only [Except.ok.injEq] at hb1
                subst hb1
                rw [hj] at h; simp at h
              · rw [hgo'] at h
                exact ho' t e h
            cases o with
            | panic v =>
              exact outcome_panic_case (by rw [hP]) (hno _ (by simp) hg1)
                (GetToken_panic w _ c.Opts v hg1)
            | ret a =>
              obtain ⟨t, eo⟩ := a
              cases eo with
              | none => exact outcome_success_case (by rw [hP]) (hno _ (by simp) hg1)
              | some e4 =>
                exact outcome_error_case (by rw [hP])
                  (hiff.mpr (Or.inr ⟨body, hb, Or.inr ⟨j, hj, ⟨e3, hs⟩, t, e4, hg1⟩⟩))

/-- With the check endpoint unreachable the check exchange fails, which is a
listed reason, and `Ping` returns `(false, err)`. -/
theorem Ping_error_iff_cause_witness :
    checkExchange (steadyWorld (.error "dial tcp: i/o timeout")
      (.ok (mkResponse 200 "200 OK" "\x7b\"token\":\"T2\"\x7d"))) [] demoClient
        = .error "dial tcp: i/o timeout" ∧
    ∃ e, (demoClient.Ping (steadyWorld (.error "dial tcp: i/o timeout")
      (.ok (mkResponse 200 "200 OK" "\x7b\"token\":\"T2\"\x7d"))) []).1
        = .ret (false, some e) :=
  ⟨rfl, (Ping_error_iff_cause (steadyWorld (.error "dial tcp: i/o timeout")
      (.ok (mkResponse 200 "200 OK" "\x7b\"token\":\"T2\"\x7d"))) [] demoClient).2.1
    (Or.inl ⟨"dial tcp: i/o timeout", rfl⟩)⟩

/-! ## Claims about `Request` -/

/-- A string is contained in whatever is written around it. -/
theorem containsChars_append (sub a b : List Char) :
    containsChars sub (a ++ (sub ++ b)) = true := by
  induction a with
  | nil =>
    cases h : sub ++ b with
    | nil =>
      have : sub = [] := (List.append_eq_nil.mp h).1
      simp [containsChars, this]
    | cons x xs =>
      have hp : sub.isPrefixOf (x :: xs) = true := by
        rw [← h]
        exact List.isPrefixOf_iff_prefix.mpr (List.prefix_append sub b)
      simp [containsChars, hp]
  | cons x xs ih =>
    show containsChars sub (x :: (xs ++ (sub ++ b))) = true
    unfold containsChars
    rw [ih, Bool.or_true]

/-- The model of `strings.Contains` finds a string between a text before and a text after. -/
theorem strings_Contains_middle (a sub b : String) :
    strings_Contains (a ++ sub ++ b) sub = true := by
  unfold strings_Contains
  simp only [String.data_append, List.append_assoc]
  exact containsChars_append sub.data a.data b.data

/-- The model of `strings.Contains` finds a string at the end of a text. -/
theorem strings_Contains_end (a sub : String) :
    strings_Contains (a ++ sub) sub = true := by
  have h := strings_Contains_middle a sub ""
  simpa using h

/-- What `http.NewRequest` puts into the request it returns. -/
theorem NewRequest_ok (w : World) (method url : String) (body : Option String)
    (req : HttpRequest) (h : w.NewRequest method url body = .ok req) :
    req.URL = url ∧ req.Header = [] ∧ req.Body = body := by
  unfold World.NewRequest at h
  simp only [] at h
  generalize (if method = "" then "GET" else method) = m at h
  split at h
  · simp at h
  · split at h
    · simp at h
    · simp only [Except.ok.injEq] at h
      subst h
      exact ⟨rfl, rfl, rfl⟩

/-- How `Request` continues once its exchange was answered. -/
theorem Request_of_requestExchange (w : World) (log : List Event) (c : E37Client)
    (method endpoint : String) (reqBody : Option String) (req : HttpRequest) (resp : Response)
    (h : requestExchange w log c method endpoint reqBody = .ok (req, resp)) :
    c.Request w log method endpoint reqBody =
      if resp.StatusCode != 200 then
        ((none, some ("error handling request for " ++ endpoint ++ " http-statuscode: "
          ++ resp.Status)), log ++ [Event.send c.Client req])
      else
        match resp.Body with
        | .error err => ((none, some err), log ++ [Event.send c.Client req])
        | .ok body => ((some body, none), log ++ [Event.send c.Client req]) := by
  unfold requestExchange at h
  unfold E37Client.Request
  simp only []
  split at h
  · simp at h
  · simp only [] at h
    split at h
    · simp at h
    · simp only [Except.ok.injEq, Prod.mk.injEq] at h
      obtain ⟨h1, h2⟩ := h
      subst h1 h2
      rfl

/-- C7: when the answer to `Request` has a status code other than 200,
`Request` returns a nil body and an error whose message contains the endpoint
and the status text of the answer. -/
theorem Request_non200_error (w : World) (log : List Event) (c : E37Client)
    (method endpoint : String) (reqBody : Option String) (req : HttpRequest) (resp : Response)
    (hx : requestExchange w log c method endpoint reqBody = .ok (req, resp))
    (hs : resp.StatusCode ≠ 200) :
    ∃ msg, (c.Request w log method endpoint reqBody).1 = (none, some msg) ∧
      strings_Contains msg endpoint = true ∧ strings_Contains msg resp.Status = true := by
  rw [Request_of_requestExchange w log c method endpoint reqBody req resp hx]
  have hne : (resp.StatusCode != 200) = true := by simpa using hs
  rw [if_pos hne]
  refine ⟨_, rfl, ?_, strings_Contains_end _ _⟩
  have h := strings_Contains_middle "error handling request for " endpoint
    (" http-statuscode: " ++ resp.Status)
  simpa [String.append_assoc] using h

/-- An answer `204 No Content` to `GET /api/metrics` is an error naming both. -/
theorem Request_non200_error_witness :
    (mkResponse 204 "204 No Content" "").StatusCode ≠ 200 ∧
    ∃ msg, (demoClient.Request (dataWorld (.ok (mkResponse 204 "204 No Content" "")))
        [] "GET" "/api/metrics" none).1 = (none, some msg) ∧
      strings_Contains msg "/api/metrics" = true ∧
      strings_Contains msg (mkResponse 204 "204 No Content" "").Status = true :=
  ⟨by decide, Request_non200_error
    (dataWorld (.ok (mkResponse 204 "204 No Content" "")))
    [] demoClient "GET" "/api/metrics" none
    { Method := "GET", URL := "http://host:8443/api/metrics",
      Header := [("Authorization", "Bearer T1"), ("Content-Type", "application/json")],
      Body := none }
    (mkResponse 204 "204 No Content" "") rfl (by decide)⟩

/-- The events of a `Request` call once `http.NewRequest` succeeded: exactly
one request, built from the result of `http.NewRequest` by setting the two
headers. -/
theorem Request_log (w : World) (log : List Event) (c : E37Client)
    (method endpoint : String) (reqBody : Option String) (req0 : HttpRequest)
    (hn : w.NewRequest method (c.Opts.URL ++ endpoint) reqBody = .ok req0) :
    (c.Request w log method endpoint reqBody).2 = log ++ [Event.send c.Client
      { Method := req0.Method, URL := req0.URL, Body := req0.Body,
        Header := Header.Set (Header.Set req0.Header "Content-Type" "application/json")
          "Authorization" ("Bearer " ++ c.Token) }] := by
  unfold E37Client.Request
  simp only [hn]
  split
  · rfl
  · split
    · rfl
    · split <;> rfl

/-- When `http.NewRequest` fails, `Request` returns its error and sends nothing. -/
theorem Request_NewRequest_error (w : World) (log : List Event) (c : E37Client)
    (method endpoint : String) (reqBody : Option String) (e : String)
    (hn : w.NewRequest method (c.Opts.URL ++ endpoint) reqBody = .error e) :
    c.Request w log method endpoint reqBody = ((none, some e), log) := by
  unfold E37Client.Request
  simp only [hn]

/-- C8: whenever `Request` gets a request from `http.NewRequest`, it sends
exactly one request; its URL is the options' URL followed by the endpoint, with
nothing added or removed, its `Content-Type` is `application/json`, its
`Authorization` is `Bearer ` followed by the session token, and method and body
are those of the call. -/
theorem Request_sends_authorized (w : World) (log : List Event) (c : E37Client)
    (method endpoint : String) (reqBody : Option String) (req0 : HttpRequest)
    (hn : w.NewRequest method (c.Opts.URL ++ endpoint) reqBody = .ok req0) :
    ∃ req, (c.Request w log method endpoint reqBody).2 = log ++ [Event.send c.Client req] ∧
      req.URL = c.Opts.URL ++ endpoint ∧
      req.Header.Get "Content-Type" = "application/json" ∧
      req.Header.Get "Authorization" = "Bearer " ++ c.Token ∧
      req.Body = reqBody := by
  obtain ⟨hu, hh, hb⟩ := NewRequest_ok w method _ reqBody req0 hn
  refine ⟨_, Request_log w log c method endpoint reqBody req0 hn, hu, ?_, ?_, hb⟩
  · simp only [hh, Header.Set, Header.Get]
    simp [List.lookup]
  · simp only [hh, Header.Set, Header.Get]
    simp [List.lookup]

/-- A `GET` of `/api/metrics` by the session holding `T1`, with no separator
between base URL and endpoint. -/
theorem Request_sends_authorized_witness :
    ∃ req, (demoClient.Request (dataWorld (.ok (mkResponse 200 "200 OK" "[]")))
        [] "GET" "/api/metrics" none).2 = [] ++ [Event.send demoClient.Client req] ∧
      req.URL = "http://host:8443" ++ "/api/metrics" ∧
      req.Header.Get "Content-Type" = "application/json" ∧
      req.Header.Get "Authorization" = "Bearer " ++ "T1" ∧
      req.Body = none :=
  Request_sends_authorized (dataWorld (.ok (mkResponse 200 "200 OK" "[]"))) [] demoClient
    "GET" "/api/metrics" none
    { Method := "GET", URL := "http://host:8443/api/metrics", Header := [], Body := none } rfl

/-! ## Claims about `NewE37Client` -/

/-- The URL check as the source writes it agrees with `URLAccepted`. -/
theorem URLAccepted_iff (w : World) (opts : E37Opts) (u : URL)
    (hu : w.parseURL (validatedURI opts) = .ok u) :
    URLAccepted w opts ↔
      ¬ ((u.Host = "" || (u.Scheme != "http" && u.Scheme != "https")) = true) := by
  unfold URLAccepted
  rw [hu]
  constructor
  · rintro ⟨u1, h1, hh, hs⟩
    simp only [Except.ok.injEq] at h1
    subst h1
    rcases hs with hs | hs <;> simp [hh, hs]
  · intro h
    refine ⟨u, rfl, ?_, ?_⟩
    · intro hh
      exact h (by simp [hh])
    · by_cases h1 : u.Scheme = "http"
      · exact Or.inl h1
      · by_cases h2 : u.Scheme = "https"
        · exact Or.inr h2
        · exact absurd (by simp [h1, h2]) h

/-- The URL that is validated, as the source computes it. -/
theorem validatedURI_eq (opts : E37Opts) :
    (if !strings_Contains opts.URL "://" then "http://" ++ opts.URL else opts.URL)
      = validatedURI opts := by
  unfold validatedURI
  cases strings_Contains opts.URL "://" <;> rfl

/-- C9: `NewE37Client` gets past its URL check (it does not stop with the
`invalid E37 URL` panic) exactly when the URL, with `http://` in front if it has
no `://`, parses with a non-empty host and scheme `http` or `https`. For every
other URL it panics with that message before any event happened, so without a
login call, and a returned session always has an accepted URL. Past the check,
with the system certificate pool at hand, the login call is made. -/
theorem NewE37Client_url_validation (w : World) (log : List Event) (opts : E37Opts) :
    (URLAccepted w opts ↔ ∀ msg, (NewE37Client w log opts).1 ≠ .panic (.str msg)) ∧
    (¬ URLAccepted w opts →
      (∃ msg, NewE37Client w log opts = (.panic (.str ("invalid E37 URL: " ++ msg)), log)) ∧
      getTokenCalls (NewE37Client w log opts).2 = getTokenCalls log) ∧
    (∀ c, (NewE37Client w log opts).1 = .ret c → URLAccepted w opts) ∧
    (URLAccepted w opts → ∀ pool, w.systemCertPool = .ok pool →
      getTokenCalls (NewE37Client w log opts).2 = getTokenCalls log + 1) := by
  have hcalls := GetToken_calls w log opts
  have hpv := GetToken_panic_value w log opts
  unfold NewE37Client
  simp only [validatedURI_eq]
  cases hu : w.parseURL (validatedURI opts) with
  | error err =>
    have hn : ¬ URLAccepted w opts := by
      rintro ⟨u, h, -⟩
      rw [hu] at h
      simp at h
    simp only [hn, false_iff, not_forall, not_not, not_false_eq_true, true_implies,
      false_implies, implies_true, and_true]
    exact ⟨⟨_, rfl⟩, ⟨_, rfl⟩, by simp⟩
  | ok u =>
    have hiff := URLAccepted_iff w opts u hu
    simp only []
    by_cases hbad : (u.Host = "" || (u.Scheme != "http" && u.Scheme != "https")) = true
    · have hn : ¬ URLAccepted w opts := fun h => hiff.mp h hbad
      rw [if_pos hbad]
      simp only [hn, false_iff, not_forall, not_not, not_false_eq_true, true_implies,
        false_implies, implies_true, and_true]
      exact ⟨⟨_, rfl⟩, ⟨_, rfl⟩, by simp⟩
    · have hy : URLAccepted w opts := hiff.mpr hbad
      rw [if_neg hbad]
      simp only [hy, true_iff, not_true_eq_false, false_implies, true_implies, implies_true,
        true_and]
      cases hp : w.systemCertPool with
      | error err => simp
      | ok pool =>
        simp only []
        generalize GetToken w log opts = r at hcalls hpv
        obtain ⟨o, l⟩ := r
        cases o with
        | panic v =>
          refine ⟨?_, ?_⟩
          · intro msg h
            simp only [Outcome.panic.injEq] at h
            have hv := hpv v rfl
            rw [h] at hv
            simp at hv
          · simpa using hcalls
        | ret a =>
          obtain ⟨t, eo⟩ := a
          cases eo with
          | none => simp at hcalls ⊢; exact hcalls
          | some e => simp at hcalls ⊢; exact hcalls

/-- The URL `host:8443` has no `://`: it is checked as `http://host:8443` and
accepted, so the login call is made; `ftp://host` is rejected with the panic and
without any login call. -/
theorem NewE37Client_url_validation_witness :
    validatedURI { demoOpts with URL := "host:8443" } = "http://host:8443" ∧
    getTokenCalls (NewE37Client (steadyWorld (.error "unused")
      (.ok (mkResponse 200 "200 OK" "\x7b\"token\":\"T1\"\x7d"))) []
        { demoOpts with URL := "host:8443" }).2 = getTokenCalls [] + 1 ∧
    ((∃ msg, NewE37Client (steadyWorld (.error "unused")
      (.ok (mkResponse 200 "200 OK" "\x7b\"token\":\"T1\"\x7d"))) []
        { demoOpts with URL := "ftp://host" }
          = (.panic (.str ("invalid E37 URL: " ++ msg)), [])) ∧
     getTokenCalls (NewE37Client (steadyWorld (.error "unused")
      (.ok (mkResponse 200 "200 OK" "\x7b\"token\":\"T1\"\x7d"))) []
        { demoOpts with URL := "ftp://host" }).2 = getTokenCalls []) :=
  ⟨by decide,
   (NewE37Client_url_validation (steadyWorld (.error "unused")
      (.ok (mkResponse 200 "200 OK" "\x7b\"token\":\"T1\"\x7d"))) []
        { demoOpts with URL := "host:8443" }).2.2.2
      ⟨{ Scheme := "http", Host := "host:8443" }, rfl, by decide, Or.inl rfl⟩ [] rfl,
   (NewE37Client_url_validation (steadyWorld (.error "unused")
      (.ok (mkResponse 200 "200 OK" "\x7b\"token\":\"T1\"\x7d"))) []
        { demoOpts with URL := "ftp://host" }).2.1
      (by
        rintro ⟨u, hu, -, hs⟩
        have hu' : u = { Scheme := "ftp", Host := "host" } := by
          have h0 : (steadyWorld (.error "unused")
              (.ok (mkResponse 200 "200 OK" "\x7b\"token\":\"T1\"\x7d"))).parseURL
              (validatedURI { demoOpts with URL := "ftp://host" })
              = .ok { Scheme := "ftp", Host := "host" } := rfl
          rw [h0] at hu
          simp only [Except.ok.injEq] at hu
          exact hu.symm
        subst hu'
        rcases hs with hs | hs <;> exact absurd hs (by decide))⟩

end E37
